import Mathlib

/-!
Verification of the `IncorrectDelimiterChecker` rule of dotenv-linter
(`src/checks/incorrect_delimiter.rs`), over a shallow embedding of the
Rust code into Lean.

The checker itself is embedded from the source file.  Three helpers it
calls live in `crate::common`, whose source is not part of the visible
repository slice; they are modelled from the specification (each marked
`Modelled from the spec:` in its doc comment): `LineEntry::get_key`,
`remove_invalid_leading_chars`, and the `Warning` constructor.

Rust's character classification is Unicode-based.  The predicates
`rustIsAlphanumeric` and `rustIsWhitespace` below embed
`char::is_alphanumeric` and `char::is_whitespace` exactly on all code
points below U+0100 (ASCII plus the Latin-1 supplement), which covers
every character exercised in this development; code points at or above
U+0100 are not modelled (the embedding treats them as neither
alphanumeric nor whitespace).
-/

namespace DotenvLinter

/-- Embeds Rust `char::is_alphanumeric` (true on Unicode `Alphabetic`
and `Number` code points).  Exact for all code points below U+0100:
ASCII letters and digits, and in the Latin-1 supplement the letters
ª µ º, the superscript/fraction numbers ¹ ² ³ ¼ ½ ¾, and the letter
ranges À–Ö, Ø–ö, ø–ÿ.  Code points ≥ U+0100 are out of the modelled
range and are mapped to `false`. -/
def rustIsAlphanumeric (c : Char) : Bool :=
  let n := c.toNat
  (0x41 ≤ n && n ≤ 0x5A) || (0x61 ≤ n && n ≤ 0x7A) || (0x30 ≤ n && n ≤ 0x39) ||
  n == 0xAA || n == 0xB5 || n == 0xBA ||
  n == 0xB2 || n == 0xB3 || n == 0xB9 || (0xBC ≤ n && n ≤ 0xBE) ||
  (0xC0 ≤ n && n ≤ 0xD6) || (0xD8 ≤ n && n ≤ 0xF6) || (0xF8 ≤ n && n ≤ 0xFF)

/-- Embeds Rust `char::is_whitespace` (the Unicode `White_Space`
property).  Exact for all code points below U+0100: the ASCII
whitespace characters U+0009–U+000D and U+0020, plus U+0085 (NEL) and
U+00A0 (no-break space).  Code points ≥ U+0100 are out of the modelled
range and are mapped to `false`. -/
def rustIsWhitespace (c : Char) : Bool :=
  let n := c.toNat
  (0x09 ≤ n && n ≤ 0x0D) || n == 0x20 || n == 0x85 || n == 0xA0

/-- A character the delimiter rule rejects: neither alphanumeric (in
Rust's Unicode sense) nor underscore.  This is the closure passed to
`.any` in `IncorrectDelimiterChecker::run`:
`|c| !c.is_alphanumeric() && c != '_'`. -/
def isInvalidKeyChar (c : Char) : Bool :=
  !(rustIsAlphanumeric c) && c != '_'

/-- An ASCII letter, ASCII digit, or underscore (the character class
named by the specification's "testable properties"). -/
def isAsciiAlnumUnderscore (c : Char) : Bool :=
  let n := c.toNat
  (0x41 ≤ n && n ≤ 0x5A) || (0x61 ≤ n && n ≤ 0x7A) || (0x30 ≤ n && n ≤ 0x39) ||
  c == '_'

/-- Embeds `FileEntry` (path, display name, total line count of the
file); `PathBuf` is modelled by its textual form. -/
structure FileEntry where
  path : String
  file_name : String
  total_lines : Nat
deriving DecidableEq

/-- Embeds `LineEntry`: one physical line of a scanned file. -/
structure LineEntry where
  number : Nat
  file : FileEntry
  raw_string : String
deriving DecidableEq

/-- Modelled from the spec: the Finding Model (`Warning` in the code,
whose definition in `crate::common` is not in the visible sources) —
the offending line, the producing rule's name, and a human-readable
message.  `Warning::new(line, name, message)` is the anonymous
constructor. -/
structure Warning where
  line : LineEntry
  check_name : String
  message : String
deriving DecidableEq

/-- Splits a list of characters at the first `=`: `some` of the
(possibly empty) prefix before the first `=` when one occurs, `none`
when the list contains no `=`. -/
def splitKey : List Char → Option (List Char)
  | [] => none
  | c :: cs => if c = '=' then some [] else (splitKey cs).map (c :: ·)

/-- Modelled from the spec: `LineEntry::get_key` (in `crate::common`,
not in the visible sources).  §4.1: return `Some(key_text)` iff
`raw_text` contains at least one delimiter `=` and the substring
preceding the first delimiter is non-empty; `key_text` is that verbatim
substring, with no trimming.  Return `None` otherwise. -/
def LineEntry.get_key (l : LineEntry) : Option String :=
  match splitKey l.raw_string.data with
  | none => none
  | some [] => none
  | some k => some ⟨k⟩

/-- List-level worker for `remove_invalid_leading_chars`: drops the
maximal leading run of characters that are not alphanumeric and not
underscore. -/
def removeInvalidLeadingList : List Char → List Char
  | [] => []
  | c :: cs =>
    if rustIsAlphanumeric c || c == '_' then c :: cs
    else removeInvalidLeadingList cs

/-- Modelled from the spec: `remove_invalid_leading_chars` (in
`crate::common`, not in the visible sources) strips a maximal prefix of
characters that are not alphanumeric and not underscore from the key. -/
def remove_invalid_leading_chars (s : String) : String :=
  ⟨removeInvalidLeadingList s.data⟩

/-- List-level worker for Rust `str::trim`: removes leading and
trailing whitespace characters. -/
def trimList (l : List Char) : List Char :=
  ((l.dropWhile rustIsWhitespace).reverse.dropWhile rustIsWhitespace).reverse

/-- Embeds Rust `str::trim`: the string with leading and trailing
whitespace (per `char::is_whitespace`) removed. -/
def rustTrim (s : String) : String :=
  ⟨trimList s.data⟩

/-- Fuel-driven worker for Rust `str::replace`.  Each step consumes at
least one character of the scanned list, so a fuel equal to the list's
length never runs out; the fuel only makes the recursion structural. -/
def replaceListAux (pat rep : List Char) : Nat → List Char → List Char
  | _, [] => []
  | 0, l => l
  | fuel + 1, c :: cs =>
    if pat.isEmpty then c :: cs
    else if pat.isPrefixOf (c :: cs) then
      rep ++ replaceListAux pat rep fuel ((c :: cs).drop pat.length)
    else
      c :: replaceListAux pat rep fuel cs

/-- List-level worker for Rust `str::replace`: replaces every
non-overlapping occurrence of `pat` by `rep`, scanning left to right.
(An empty `pat` is treated as matching nowhere; the only pattern used
in this development is the non-empty `"\x7b\x7d"`.) -/
def replaceList (pat rep l : List Char) : List Char :=
  replaceListAux pat rep l.length l

/-- Embeds Rust `str::replace(pattern, replacement)`. -/
def rustReplace (s pat rep : String) : String :=
  ⟨replaceList pat.data rep.data s.data⟩

/-- Embeds the checker struct `IncorrectDelimiterChecker` with its two
string fields. -/
structure IncorrectDelimiterChecker where
  name : String
  template : String
deriving DecidableEq

/-- Embeds `IncorrectDelimiterChecker::default()`. -/
def IncorrectDelimiterChecker.dflt : IncorrectDelimiterChecker :=
  { name := "IncorrectDelimiter"
    template := "The \x7b\x7d key has incorrect delimiter" }

/-- Embeds `IncorrectDelimiterChecker::message`:
`self.template.replace("\x7b\x7d", &key)`. -/
def IncorrectDelimiterChecker.message
    (self : IncorrectDelimiterChecker) (key : String) : String :=
  rustReplace self.template "\x7b\x7d" key

/-- Embeds `IncorrectDelimiterChecker::run` (the body of the `Check`
impl): extract the key; strip invalid leading characters; if any
character of the trimmed cleaned key is neither alphanumeric nor
underscore, emit a `Warning` built from the original key. -/
def IncorrectDelimiterChecker.run
    (self : IncorrectDelimiterChecker) (line : LineEntry) : Option Warning :=
  match line.get_key with
  | none => none
  | some key =>
    let cleaned_key := remove_invalid_leading_chars key
    if (rustTrim cleaned_key).data.any isInvalidKeyChar then
      some ⟨line, self.name, self.message key⟩
    else
      none

/-- The Rust method signature is `fn run(&mut self, line: &LineEntry)`;
the body never writes through `self`, so the `&mut` receiver is
embedded as explicit state passing that returns the (unchanged)
checker alongside the result. -/
def IncorrectDelimiterChecker.runMut
    (self : IncorrectDelimiterChecker) (line : LineEntry) :
    Option Warning × IncorrectDelimiterChecker :=
  (self.run line, self)

/-- Threads one checker instance through a list of lines, keeping only
the final checker state (models reusing one rule instance across many
lines of a run). -/
def runAll (self : IncorrectDelimiterChecker) (ls : List LineEntry) :
    IncorrectDelimiterChecker :=
  ls.foldl (fun c l => (c.runMut l).2) self

/-- A convenient concrete line for examples: the `.env` file of the
repository's tests. -/
def testLine (raw : String) : LineEntry :=
  { number := 1
    file := { path := ".env", file_name := ".env", total_lines := 1 }
    raw_string := raw }

example : (IncorrectDelimiterChecker.dflt.run (testLine "FOO_BAR=FOOBAR")) = none := by decide
example : (IncorrectDelimiterChecker.dflt.run (testLine "F1OO=BAR")) = none := by decide
example : (IncorrectDelimiterChecker.dflt.run (testLine "*FOO=BAR")) = none := by decide
example : (IncorrectDelimiterChecker.dflt.run (testLine "***F-OOBAR=BAZ")) =
    some ⟨testLine "***F-OOBAR=BAZ", "IncorrectDelimiter",
      "The ***F-OOBAR key has incorrect delimiter"⟩ := by decide
example : (IncorrectDelimiterChecker.dflt.run (testLine "FOO-BAR=FOOBAR")) =
    some ⟨testLine "FOO-BAR=FOOBAR", "IncorrectDelimiter",
      "The FOO-BAR key has incorrect delimiter"⟩ := by decide
example : (IncorrectDelimiterChecker.dflt.run (testLine "FOO BAR=FOOBAR")) =
    some ⟨testLine "FOO BAR=FOOBAR", "IncorrectDelimiter",
      "The FOO BAR key has incorrect delimiter"⟩ := by decide
example : (IncorrectDelimiterChecker.dflt.run (testLine "FOO-BAR")) = none := by decide
example : (IncorrectDelimiterChecker.dflt.run (testLine "FOO_BAR =FOOBAR")) = none := by decide
example : (IncorrectDelimiterChecker.dflt.run (testLine "")) = none := by decide
example : (IncorrectDelimiterChecker.dflt.run (testLine "F=BAR")) = none := by decide

/-! ### Character-class lemmas -/

/-- A character accepted by the scan (alphanumeric or underscore) is
never whitespace: the two modelled Unicode classes are disjoint. -/
lemma valid_not_ws {c : Char} (h : (rustIsAlphanumeric c || c == '_') = true) :
    rustIsWhitespace c = false := by
  rcases Bool.or_eq_true_iff.mp h with ha | hu
  · cases hw : rustIsWhitespace c with
    | false => rfl
    | true =>
      exfalso
      simp only [rustIsAlphanumeric, Bool.or_eq_true, Bool.and_eq_true,
        decide_eq_true_eq, beq_iff_eq] at ha
      simp only [rustIsWhitespace, Bool.or_eq_true, Bool.and_eq_true,
        decide_eq_true_eq, beq_iff_eq] at hw
      omega
  · have hc : c = '_' := beq_iff_eq.mp hu
    subst hc
    rfl

/-- A whitespace character is not a valid key character. -/
lemma ws_not_valid {c : Char} (h : rustIsWhitespace c = true) :
    (rustIsAlphanumeric c || c == '_') = false := by
  cases hv : (rustIsAlphanumeric c || c == '_') with
  | false => rfl
  | true =>
    rw [valid_not_ws hv] at h
    exact absurd h (by simp)

/-- A whitespace character is rejected by the scan. -/
lemma ws_invalid {c : Char} (h : rustIsWhitespace c = true) :
    isInvalidKeyChar c = true := by
  obtain ⟨ha, hu⟩ := Bool.or_eq_false_iff.mp (ws_not_valid h)
  simp [isInvalidKeyChar, ha, bne, hu]

/-- A valid key character is not rejected by the scan. -/
lemma valid_not_invalid {c : Char} (h : (rustIsAlphanumeric c || c == '_') = true) :
    isInvalidKeyChar c = false := by
  simp only [Bool.or_eq_true, beq_iff_eq] at h
  rcases h with h | h
  · simp [isInvalidKeyChar, h]
  · simp [isInvalidKeyChar, h]

/-- A character rejected by the scan, spelled as a conjunction. -/
lemma isInvalidKeyChar_iff {c : Char} :
    isInvalidKeyChar c = true ↔ rustIsAlphanumeric c = false ∧ c ≠ '_' := by
  simp [isInvalidKeyChar, Bool.and_eq_true, Bool.not_eq_true', bne_iff_ne]

/-! ### Lemmas about the cleaning, trimming and scanning steps -/

/-- Stripping invalid leading characters skips any all-invalid prefix. -/
lemma removeInvalidLeadingList_append {p : List Char} {s : List Char}
    (hp : ∀ c ∈ p, (rustIsAlphanumeric c || c == '_') = false) :
    removeInvalidLeadingList (p ++ s) = removeInvalidLeadingList s := by
  induction p with
  | nil => rfl
  | cons a q ih =>
    have ha : (rustIsAlphanumeric a || a == '_') = false :=
      hp a (List.mem_cons_self a q)
    simp only [List.cons_append, removeInvalidLeadingList, ha]
    exact ih fun c hc => hp c (List.mem_cons_of_mem a hc)

/-- Stripping invalid leading characters keeps a list whose head is
valid. -/
lemma removeInvalidLeadingList_valid_head {a : Char} {s : List Char}
    (ha : (rustIsAlphanumeric a || a == '_') = true) :
    removeInvalidLeadingList (a :: s) = a :: s := by
  simp [removeInvalidLeadingList, ha]

/-- Stripping invalid leading characters consumes an all-invalid list. -/
lemma removeInvalidLeadingList_all_invalid {l : List Char}
    (h : ∀ c ∈ l, (rustIsAlphanumeric c || c == '_') = false) :
    removeInvalidLeadingList l = [] := by
  induction l with
  | nil => rfl
  | cons a q ih =>
    have ha := h a (List.mem_cons_self a q)
    simp only [removeInvalidLeadingList, ha]
    exact ih fun c hc => h c (List.mem_cons_of_mem a hc)

/-- `dropWhile` is the identity on a list none of whose characters
satisfy the predicate. -/
lemma dropWhile_eq_self_of_all_false {p : Char → Bool} {l : List Char}
    (h : ∀ c ∈ l, p c = false) : l.dropWhile p = l := by
  cases l with
  | nil => rfl
  | cons a q =>
    have ha := h a (List.mem_cons_self a q)
    simp [List.dropWhile_cons, ha]

/-- Trimming removes an all-whitespace suffix from a list of
non-whitespace characters, and nothing else. -/
lemma trimList_append_ws {k w : List Char}
    (hk : ∀ c ∈ k, rustIsWhitespace c = false)
    (hw : ∀ c ∈ w, rustIsWhitespace c = true) :
    trimList (k ++ w) = k := by
  unfold trimList
  cases k with
  | nil =>
    have hdrop : w.dropWhile rustIsWhitespace = [] :=
      List.dropWhile_eq_nil_iff.mpr fun c hc => hw c hc
    simp [hdrop]
  | cons a q =>
    have ha := hk a (List.mem_cons_self a q)
    rw [List.cons_append, List.dropWhile_cons, ha]
    simp only [Bool.false_eq_true, if_false]
    rw [List.reverse_cons, List.reverse_append, List.append_assoc,
      List.dropWhile_append]
    have hwrev : w.reverse.dropWhile rustIsWhitespace = [] :=
      List.dropWhile_eq_nil_iff.mpr fun c hc =>
        hw c (List.mem_reverse.mp hc)
    rw [hwrev]
    simp only [List.isEmpty_nil, if_true]
    rw [dropWhile_eq_self_of_all_false (fun c hc => hk c (by
      rcases List.mem_append.mp hc with h | h
      · exact List.mem_cons_of_mem a (List.mem_reverse.mp h)
      · simp only [List.mem_singleton] at h
        exact h ▸ List.mem_cons_self a q))]
    rw [← List.reverse_cons, List.reverse_reverse]

/-- Trimming is the identity on a list with no whitespace. -/
lemma trimList_eq_self {l : List Char}
    (h : ∀ c ∈ l, rustIsWhitespace c = false) : trimList l = l := by
  have := trimList_append_ws h (w := []) (fun c hc => absurd hc (List.not_mem_nil c))
  simpa using this

/-- The character scan succeeds iff some character is neither
alphanumeric nor underscore. -/
lemma any_invalid_iff {l : List Char} :
    l.any isInvalidKeyChar = true ↔
      ∃ c ∈ l, rustIsAlphanumeric c = false ∧ c ≠ '_' := by
  rw [List.any_eq_true]
  constructor
  · rintro ⟨c, hc, hinv⟩
    exact ⟨c, hc, isInvalidKeyChar_iff.mp hinv⟩
  · rintro ⟨c, hc, hinv⟩
    exact ⟨c, hc, isInvalidKeyChar_iff.mpr hinv⟩

/-- The scan fails on a list of valid characters. -/
lemma any_invalid_eq_false {l : List Char}
    (h : ∀ c ∈ l, (rustIsAlphanumeric c || c == '_') = true) :
    l.any isInvalidKeyChar = false := by
  rw [List.any_eq_false]
  intro c hc
  rw [valid_not_invalid (h c hc)]
  exact Bool.false_ne_true

/-! ### Shape of `run` -/

/-- When key extraction succeeds, `run` reduces to the guarded warning
construction. -/
lemma run_eq_of_get_key (ch : IncorrectDelimiterChecker) (line : LineEntry)
    (key : String) (h : line.get_key = some key) :
    ch.run line =
      if (rustTrim (remove_invalid_leading_chars key)).data.any isInvalidKeyChar then
        some ⟨line, ch.name, ch.message key⟩
      else none := by
  simp only [IncorrectDelimiterChecker.run, h]

/-- When key extraction fails, `run` returns no warning. -/
lemma run_eq_none_of_no_key (ch : IncorrectDelimiterChecker) (line : LineEntry)
    (h : line.get_key = none) : ch.run line = none := by
  simp only [IncorrectDelimiterChecker.run, h]

/-- Exact characterization of a firing evaluation. -/
lemma run_eq_some_iff (ch : IncorrectDelimiterChecker) (line : LineEntry)
    (w : Warning) :
    ch.run line = some w ↔
      ∃ key, line.get_key = some key ∧
        (rustTrim (remove_invalid_leading_chars key)).data.any isInvalidKeyChar = true ∧
        w = ⟨line, ch.name, ch.message key⟩ := by
  constructor
  · intro h
    rcases hk : line.get_key with _ | key
    · rw [run_eq_none_of_no_key ch line hk] at h
      exact absurd h (Option.noConfusion)
    · rw [run_eq_of_get_key ch line key hk] at h
      by_cases hc :
          (rustTrim (remove_invalid_leading_chars key)).data.any isInvalidKeyChar = true
      · rw [if_pos hc] at h
        exact ⟨key, rfl, hc, (Option.some_injective _ h).symm⟩
      · rw [if_neg hc] at h
        exact absurd h (Option.noConfusion)
  · rintro ⟨key, hk, hc, hw⟩
    rw [run_eq_of_get_key ch line key hk, if_pos hc, hw]

/-- An ASCII letter, digit, or underscore is a valid key character. -/
lemma ascii_valid {c : Char} (h : isAsciiAlnumUnderscore c = true) :
    (rustIsAlphanumeric c || c == '_') = true := by
  simp only [isAsciiAlnumUnderscore, Bool.or_eq_true, Bool.and_eq_true,
    decide_eq_true_eq] at h
  simp only [rustIsAlphanumeric, Bool.or_eq_true, Bool.and_eq_true,
    decide_eq_true_eq]
  rcases h with ((h | h) | h) | h
  · exact Or.inl (by omega)
  · exact Or.inl (by omega)
  · exact Or.inl (by omega)
  · exact Or.inr h

/-- A key all of whose characters are valid produces no finding. -/
lemma run_none_of_all_valid (ch : IncorrectDelimiterChecker) (line : LineEntry)
    (key : String) (h : line.get_key = some key)
    (hv : ∀ c ∈ key.data, (rustIsAlphanumeric c || c == '_') = true) :
    ch.run line = none := by
  rw [run_eq_of_get_key ch line key h]
  have hclean : removeInvalidLeadingList key.data = key.data := by
    cases hd : key.data with
    | nil => rfl
    | cons a q =>
      exact removeInvalidLeadingList_valid_head
        (hv a (hd ▸ List.mem_cons_self a q))
  have htrim : trimList key.data = key.data :=
    trimList_eq_self fun c hc => valid_not_ws (hv c hc)
  rw [show rustTrim (remove_invalid_leading_chars key) = key from
    String.ext (by
      simp only [rustTrim, remove_invalid_leading_chars, hclean, htrim])]
  rw [any_invalid_eq_false hv]
  simp

/-- A character list without `=` has no key split. -/
lemma splitKey_eq_none_of_no_eq {l : List Char}
    (h : ∀ c ∈ l, c ≠ '=') : splitKey l = none := by
  induction l with
  | nil => rfl
  | cons a q ih =>
    have ha : a ≠ '=' := h a (List.mem_cons_self a q)
    simp only [splitKey, if_neg ha]
    rw [ih fun c hc => h c (List.mem_cons_of_mem a hc)]
    rfl

/-- Threading the checker through any list of lines leaves it
unchanged: `run` never writes to `self`. -/
lemma runAll_eq (ch : IncorrectDelimiterChecker) (ls : List LineEntry) :
    runAll ch ls = ch := by
  induction ls with
  | nil => rfl
  | cons l q ih =>
    show runAll (ch.runMut l).2 q = ch
    exact ih

/-- The default checker's message is the fixed sentence with the key
substituted for the placeholder. -/
lemma dflt_message (key : String) :
    IncorrectDelimiterChecker.dflt.message key =
      "The " ++ key ++ " key has incorrect delimiter" := rfl

/-! ### The claims -/

/-- Claim C1: for every line whose key extraction succeeds, the rule
fires iff, after stripping the maximal leading prefix of
non-alphanumeric non-underscore characters from the key and trimming
surrounding whitespace from the cleaned key, at least one remaining
character is neither alphanumeric nor underscore. -/
theorem run_fires_iff_invalid_after_clean_and_trim
    (ch : IncorrectDelimiterChecker) (line : LineEntry) (key : String)
    (h : line.get_key = some key) :
    (ch.run line).isSome = true ↔
      ∃ c ∈ (rustTrim (remove_invalid_leading_chars key)).data,
        rustIsAlphanumeric c = false ∧ c ≠ '_' := by
  rw [run_eq_of_get_key ch line key h, ← any_invalid_iff]
  cases hb : (rustTrim (remove_invalid_leading_chars key)).data.any isInvalidKeyChar with
  | false => simp [hb]
  | true => simp [hb]

/-- Witness for C1 at the line `FOO-BAR=BAZ`. -/
theorem run_fires_iff_invalid_after_clean_and_trim_witness :
    (testLine "FOO-BAR=BAZ").get_key = some "FOO-BAR" ∧
    ((IncorrectDelimiterChecker.dflt.run (testLine "FOO-BAR=BAZ")).isSome = true ↔
      ∃ c ∈ (rustTrim (remove_invalid_leading_chars "FOO-BAR")).data,
        rustIsAlphanumeric c = false ∧ c ≠ '_') :=
  ⟨by decide, run_fires_iff_invalid_after_clean_and_trim
    IncorrectDelimiterChecker.dflt (testLine "FOO-BAR=BAZ") "FOO-BAR" (by decide)⟩

/-- Claim C2 (counterexample): the claim states that any character
other than an ASCII letter, ASCII digit or underscore after the key's
leading run makes the rule fire, and in particular that a non-ASCII
Unicode letter strictly between other characters fires.  The key of
the line `AéB =C` is `AéB `; it contains the non-ASCII letter `é`
strictly between `A` and `B` and a space after the leading run, both
outside the ASCII letter/digit/underscore class, yet the evaluation
returns no finding (Rust's `char::is_alphanumeric` accepts `é`, and
the trim step removes the boundary space). -/
theorem ascii_claim_counterexample :
    (testLine "AéB =C").get_key = some "AéB " ∧
    'é' ∈ "AéB ".data ∧ 128 ≤ ('é').toNat ∧
    isAsciiAlnumUnderscore 'é' = false ∧
    ' ' ∈ "AéB ".data ∧ isAsciiAlnumUnderscore ' ' = false ∧
    IncorrectDelimiterChecker.dflt.run (testLine "AéB =C") = none := by
  exact ⟨by decide, by decide, by decide, by decide, by decide, by decide, by decide⟩

/-- Claim C2 (amended): the rule flags exactly the keys whose cleaned
and trimmed form retains a character that is neither alphanumeric in
Rust's Unicode sense (`char::is_alphanumeric`) nor underscore; in
particular, a key consisting solely of ASCII letters, digits and
underscores never fires. -/
theorem run_flags_unicode_invalid_exactly
    (ch : IncorrectDelimiterChecker) (line : LineEntry) (key : String)
    (h : line.get_key = some key) :
    ((ch.run line).isSome = true ↔
      ∃ c ∈ (rustTrim (remove_invalid_leading_chars key)).data,
        rustIsAlphanumeric c = false ∧ c ≠ '_') ∧
    ((∀ c ∈ key.data, isAsciiAlnumUnderscore c = true) → ch.run line = none) := by
  constructor
  · rw [run_eq_of_get_key ch line key h, ← any_invalid_iff]
    cases hb : (rustTrim (remove_invalid_leading_chars key)).data.any isInvalidKeyChar with
    | false => simp [hb]
    | true => simp [hb]
  · intro hv
    exact run_none_of_all_valid ch line key h fun c hc => ascii_valid (hv c hc)

/-- Witness for C2's amended claim at the line `FOO_BAR=1`. -/
theorem run_flags_unicode_invalid_exactly_witness :
    (testLine "FOO_BAR=1").get_key = some "FOO_BAR" ∧
    (((IncorrectDelimiterChecker.dflt.run (testLine "FOO_BAR=1")).isSome = true ↔
      ∃ c ∈ (rustTrim (remove_invalid_leading_chars "FOO_BAR")).data,
        rustIsAlphanumeric c = false ∧ c ≠ '_') ∧
     ((∀ c ∈ "FOO_BAR".data, isAsciiAlnumUnderscore c = true) →
       IncorrectDelimiterChecker.dflt.run (testLine "FOO_BAR=1") = none)) :=
  ⟨by decide, run_flags_unicode_invalid_exactly
    IncorrectDelimiterChecker.dflt (testLine "FOO_BAR=1") "FOO_BAR" (by decide)⟩

/-- Claim C3: a key whose characters outside the
alphanumeric/underscore class form only a leading run produces no
finding. -/
theorem leading_invalid_only_no_finding
    (ch : IncorrectDelimiterChecker) (line : LineEntry) (key : String)
    (p s : List Char) (h : line.get_key = some key)
    (hk : key.data = p ++ s)
    (hp : ∀ c ∈ p, (rustIsAlphanumeric c || c == '_') = false)
    (hs : ∀ c ∈ s, (rustIsAlphanumeric c || c == '_') = true) :
    ch.run line = none := by
  rw [run_eq_of_get_key ch line key h]
  have hclean : (remove_invalid_leading_chars key).data = s := by
    simp only [remove_invalid_leading_chars, hk, removeInvalidLeadingList_append hp]
    cases s with
    | nil => rfl
    | cons a q =>
      exact removeInvalidLeadingList_valid_head (hs a (List.mem_cons_self a q))
  have htrim : (rustTrim (remove_invalid_leading_chars key)).data = s := by
    simp only [rustTrim, hclean]
    exact trimList_eq_self fun c hc => valid_not_ws (hs c hc)
  rw [htrim, any_invalid_eq_false hs]
  simp

/-- Witness for C3 at the line `*FOO=BAR`. -/
theorem leading_invalid_only_no_finding_witness :
    (testLine "*FOO=BAR").get_key = some "*FOO" ∧
    "*FOO".data = ['*'] ++ "FOO".data ∧
    (∀ c ∈ ['*'], (rustIsAlphanumeric c || c == '_') = false) ∧
    (∀ c ∈ "FOO".data, (rustIsAlphanumeric c || c == '_') = true) ∧
    IncorrectDelimiterChecker.dflt.run (testLine "*FOO=BAR") = none :=
  ⟨by decide, by decide, by decide, by decide,
   leading_invalid_only_no_finding IncorrectDelimiterChecker.dflt
     (testLine "*FOO=BAR") "*FOO" ['*'] "FOO".data
     (by decide) (by decide) (by decide) (by decide)⟩

/-- Claim C4: a key with a leading run of invalid characters followed
by a valid character, some character of whose trimmed remainder is
invalid, makes the rule fire, and the emitted warning embeds the
original key text — leading invalid characters included — not the
cleaned key. -/
theorem leading_and_internal_invalid_fires
    (line : LineEntry) (key : String) (p : List Char) (a : Char)
    (s : List Char) (h : line.get_key = some key)
    (hk : key.data = p ++ a :: s)
    (hp : ∀ c ∈ p, (rustIsAlphanumeric c || c == '_') = false)
    (ha : (rustIsAlphanumeric a || a == '_') = true)
    (hint : ∃ c ∈ trimList (a :: s), rustIsAlphanumeric c = false ∧ c ≠ '_') :
    IncorrectDelimiterChecker.dflt.run line =
      some ⟨line, "IncorrectDelimiter",
        "The " ++ key ++ " key has incorrect delimiter"⟩ := by
  rw [run_eq_of_get_key _ _ _ h]
  have hclean : remove_invalid_leading_chars key = ⟨a :: s⟩ :=
    String.ext (by
      simp only [remove_invalid_leading_chars, hk,
        removeInvalidLeadingList_append hp, removeInvalidLeadingList_valid_head ha])
  rw [hclean]
  have hany : (rustTrim ⟨a :: s⟩).data.any isInvalidKeyChar = true :=
    any_invalid_iff.mpr hint
  rw [hany]
  rfl

/-- Witness for C4 at the line `***F-OOBAR=BAZ`. -/
theorem leading_and_internal_invalid_fires_witness :
    (testLine "***F-OOBAR=BAZ").get_key = some "***F-OOBAR" ∧
    "***F-OOBAR".data = ['*', '*', '*'] ++ 'F' :: "-OOBAR".data ∧
    (∃ c ∈ trimList ('F' :: "-OOBAR".data),
      rustIsAlphanumeric c = false ∧ c ≠ '_') ∧
    IncorrectDelimiterChecker.dflt.run (testLine "***F-OOBAR=BAZ") =
      some ⟨testLine "***F-OOBAR=BAZ", "IncorrectDelimiter",
        "The " ++ "***F-OOBAR" ++ " key has incorrect delimiter"⟩ :=
  ⟨by decide, by decide, by decide,
   leading_and_internal_invalid_fires (testLine "***F-OOBAR=BAZ")
     "***F-OOBAR" ['*', '*', '*'] 'F' "-OOBAR".data
     (by decide) (by decide) (by decide) (by decide) (by decide)⟩

/-- Claim C5: a whitespace character surviving the clean-and-trim steps
makes the rule fire (internal whitespace), while a key made of valid
characters followed by boundary whitespace produces no finding,
because the trim step removes that whitespace before the scan. -/
theorem internal_ws_fires_boundary_ws_trimmed :
    (∀ (ch : IncorrectDelimiterChecker) (line : LineEntry) (key : String),
        line.get_key = some key →
        (∃ c ∈ (rustTrim (remove_invalid_leading_chars key)).data,
          rustIsWhitespace c = true) →
        (ch.run line).isSome = true) ∧
    (∀ (ch : IncorrectDelimiterChecker) (line : LineEntry) (key : String)
        (k w : List Char),
        line.get_key = some key → key.data = k ++ w →
        (∀ c ∈ k, (rustIsAlphanumeric c || c == '_') = true) →
        (∀ c ∈ w, rustIsWhitespace c = true) →
        ch.run line = none) := by
  constructor
  · rintro ch line key h ⟨c, hc, hcw⟩
    rw [run_eq_of_get_key ch line key h]
    have hany : (rustTrim (remove_invalid_leading_chars key)).data.any
        isInvalidKeyChar = true :=
      List.any_eq_true.mpr ⟨c, hc, ws_invalid hcw⟩
    rw [hany]
    rfl
  · rintro ch line key k w h hk hkv hww
    rw [run_eq_of_get_key ch line key h]
    cases k with
    | nil =>
      have hclean : removeInvalidLeadingList key.data = [] := by
        rw [hk, List.nil_append]
        exact removeInvalidLeadingList_all_invalid
          fun c hc => ws_not_valid (hww c hc)
      have : (rustTrim (remove_invalid_leading_chars key)).data = [] := by
        simp only [rustTrim, remove_invalid_leading_chars, hclean]
        rfl
      rw [this]
      rfl
    | cons a q =>
      have hclean : (remove_invalid_leading_chars key).data = (a :: q) ++ w := by
        simp only [remove_invalid_leading_chars, hk, List.cons_append]
        exact removeInvalidLeadingList_valid_head
          (hkv a (List.mem_cons_self a q))
      have htrim : (rustTrim (remove_invalid_leading_chars key)).data = a :: q := by
        simp only [rustTrim, hclean]
        exact trimList_append_ws (fun c hc => valid_not_ws (hkv c hc)) hww
      rw [htrim, any_invalid_eq_false hkv]
      simp

/-- Witness for C5 at the lines `FOO BAR=FOOBAR` (internal whitespace,
fires) and `FOO_BAR =FOOBAR` (boundary whitespace, trimmed away, no
finding). -/
theorem internal_ws_fires_boundary_ws_trimmed_witness :
    (IncorrectDelimiterChecker.dflt.run (testLine "FOO BAR=FOOBAR")).isSome = true ∧
    IncorrectDelimiterChecker.dflt.run (testLine "FOO_BAR =FOOBAR") = none :=
  ⟨internal_ws_fires_boundary_ws_trimmed.1 IncorrectDelimiterChecker.dflt
     (testLine "FOO BAR=FOOBAR") "FOO BAR" (by decide) (by decide),
   internal_ws_fires_boundary_ws_trimmed.2 IncorrectDelimiterChecker.dflt
     (testLine "FOO_BAR =FOOBAR") "FOO_BAR " "FOO_BAR".data [' ']
     (by decide) (by decide) (by decide) (by decide)⟩

/-- Claim C6: whenever the rule fires it emits exactly one warning,
whose name is the constant rule name, whose message is the template
with the original unmodified key substituted — exactly the string
`The (key) key has incorrect delimiter` — and whose line is the input
line. -/
theorem firing_emits_single_warning_with_original_key
    (line : LineEntry) (w : Warning)
    (h : IncorrectDelimiterChecker.dflt.run line = some w) :
    ∃ key, line.get_key = some key ∧
      w.check_name = "IncorrectDelimiter" ∧
      w.message = "The " ++ key ++ " key has incorrect delimiter" ∧
      w.line = line ∧
      ∀ w', IncorrectDelimiterChecker.dflt.run line = some w' → w' = w := by
  obtain ⟨key, hk, hc, hw⟩ := (run_eq_some_iff _ _ _).mp h
  refine ⟨key, hk, ?_, ?_, ?_, ?_⟩
  · rw [hw]
    rfl
  · rw [hw]
    exact dflt_message key
  · rw [hw]
  · intro w' h'
    rw [h] at h'
    exact (Option.some_injective _ h').symm

/-- Witness for C6 at the line `FOO-BAR=FOOBAR`. -/
theorem firing_emits_single_warning_with_original_key_witness :
    IncorrectDelimiterChecker.dflt.run (testLine "FOO-BAR=FOOBAR") =
      some ⟨testLine "FOO-BAR=FOOBAR", "IncorrectDelimiter",
        "The FOO-BAR key has incorrect delimiter"⟩ ∧
    ∃ key, (testLine "FOO-BAR=FOOBAR").get_key = some key ∧
      (Warning.mk (testLine "FOO-BAR=FOOBAR") "IncorrectDelimiter"
        "The FOO-BAR key has incorrect delimiter").check_name = "IncorrectDelimiter" ∧
      (Warning.mk (testLine "FOO-BAR=FOOBAR") "IncorrectDelimiter"
        "The FOO-BAR key has incorrect delimiter").message =
        "The " ++ key ++ " key has incorrect delimiter" ∧
      (Warning.mk (testLine "FOO-BAR=FOOBAR") "IncorrectDelimiter"
        "The FOO-BAR key has incorrect delimiter").line = testLine "FOO-BAR=FOOBAR" ∧
      ∀ w', IncorrectDelimiterChecker.dflt.run (testLine "FOO-BAR=FOOBAR") = some w' →
        w' = Warning.mk (testLine "FOO-BAR=FOOBAR") "IncorrectDelimiter"
          "The FOO-BAR key has incorrect delimiter" :=
  ⟨by decide, firing_emits_single_warning_with_original_key
    (testLine "FOO-BAR=FOOBAR")
    (Warning.mk (testLine "FOO-BAR=FOOBAR") "IncorrectDelimiter"
      "The FOO-BAR key has incorrect delimiter") (by decide)⟩

/-- Claim C7: a line whose raw text is empty or contains no delimiter
has no key, so the rule returns no finding; and the evaluation is
total — its only outcomes are a finding or no finding. -/
theorem no_key_no_finding (line : LineEntry)
    (h : line.raw_string = "" ∨ ∀ c ∈ line.raw_string.data, c ≠ '=') :
    line.get_key = none ∧
    ∀ ch : IncorrectDelimiterChecker,
      ch.run line = none ∧ (ch.run line = none ∨ ∃ w, ch.run line = some w) := by
  have hgk : line.get_key = none := by
    have hsplit : splitKey line.raw_string.data = none := by
      rcases h with h | h
      · rw [h]
        rfl
      · exact splitKey_eq_none_of_no_eq h
    simp only [LineEntry.get_key, hsplit]
  exact ⟨hgk, fun ch =>
    ⟨run_eq_none_of_no_key ch line hgk,
     Or.inl (run_eq_none_of_no_key ch line hgk)⟩⟩

/-- Witness for C7 at the delimiter-free line `FOO-BAR`. -/
theorem no_key_no_finding_witness :
    (∀ c ∈ (testLine "FOO-BAR").raw_string.data, c ≠ '=') ∧
    ((testLine "FOO-BAR").get_key = none ∧
     ∀ ch : IncorrectDelimiterChecker,
       ch.run (testLine "FOO-BAR") = none ∧
       (ch.run (testLine "FOO-BAR") = none ∨
        ∃ w, ch.run (testLine "FOO-BAR") = some w)) :=
  ⟨by decide, no_key_no_finding (testLine "FOO-BAR") (Or.inr (by decide))⟩

/-- Claim C8: evaluation is idempotent and order-independent — running
the checker on a line after it has been threaded through any other
lines gives the same result as running it fresh, and an immediate
second run on the same line gives the same result as the first. -/
theorem run_idempotent_order_independent :
    ∀ (ch : IncorrectDelimiterChecker) (ls : List LineEntry) (l : LineEntry),
      ((runAll ch ls).runMut l).1 = (ch.runMut l).1 ∧
      ((ch.runMut l).2.runMut l).1 = (ch.runMut l).1 := by
  intro ch ls l
  rw [runAll_eq]
  exact ⟨rfl, rfl⟩

/-- Claim C9: a key consisting entirely of invalid characters is fully
consumed by the leading-prefix cleaning, the trimmed remainder is
empty, and the rule produces no finding. -/
theorem all_invalid_key_no_finding (line : LineEntry) (key : String)
    (h : line.get_key = some key)
    (hall : ∀ c ∈ key.data, (rustIsAlphanumeric c || c == '_') = false) :
    remove_invalid_leading_chars key = "" ∧
    rustTrim (remove_invalid_leading_chars key) = "" ∧
    ∀ ch : IncorrectDelimiterChecker, ch.run line = none := by
  have hclean : remove_invalid_leading_chars key = "" :=
    String.ext (by
      simp only [remove_invalid_leading_chars,
        removeInvalidLeadingList_all_invalid hall])
  refine ⟨hclean, ?_, ?_⟩
  · rw [hclean]
    rfl
  · intro ch
    rw [run_eq_of_get_key ch line key h, hclean]
    rfl

/-- Witness for C9 at the line `***=X`. -/
theorem all_invalid_key_no_finding_witness :
    (testLine "***=X").get_key = some "***" ∧
    (∀ c ∈ "***".data, (rustIsAlphanumeric c || c == '_') = false) ∧
    (remove_invalid_leading_chars "***" = "" ∧
     rustTrim (remove_invalid_leading_chars "***") = "" ∧
     ∀ ch : IncorrectDelimiterChecker, ch.run (testLine "***=X") = none) :=
  ⟨by decide, by decide,
   all_invalid_key_no_finding (testLine "***=X") "***" (by decide) (by decide)⟩

/-- Claim C10: an evaluation leaves the checker unchanged — its name
and template fields read the same after the call — and the warning it
may emit carries (a copy of) the input line itself, which the call
does not modify. -/
theorem run_frame_preserves_checker_and_line
    (ch : IncorrectDelimiterChecker) (line : LineEntry) :
    (ch.runMut line).2 = ch ∧
    (ch.runMut line).2.name = ch.name ∧
    (ch.runMut line).2.template = ch.template ∧
    ∀ w, (ch.runMut line).1 = some w → w.line = line := by
  refine ⟨rfl, rfl, rfl, fun w hw => ?_⟩
  obtain ⟨key, hk, hc, hww⟩ := (run_eq_some_iff ch line w).mp hw
  rw [hww]

/-- Witness for C10 at the line `FOO-BAR=FOOBAR`. -/
theorem run_frame_preserves_checker_and_line_witness :
    (IncorrectDelimiterChecker.dflt.runMut (testLine "FOO-BAR=FOOBAR")).1 =
      some (Warning.mk (testLine "FOO-BAR=FOOBAR") "IncorrectDelimiter"
        "The FOO-BAR key has incorrect delimiter") ∧
    (IncorrectDelimiterChecker.dflt.runMut (testLine "FOO-BAR=FOOBAR")).2 =
      IncorrectDelimiterChecker.dflt ∧
    (Warning.mk (testLine "FOO-BAR=FOOBAR") "IncorrectDelimiter"
      "The FOO-BAR key has incorrect delimiter").line = testLine "FOO-BAR=FOOBAR" :=
  ⟨by decide,
   (run_frame_preserves_checker_and_line IncorrectDelimiterChecker.dflt
     (testLine "FOO-BAR=FOOBAR")).1,
   (run_frame_preserves_checker_and_line IncorrectDelimiterChecker.dflt
     (testLine "FOO-BAR=FOOBAR")).2.2.2
     (Warning.mk (testLine "FOO-BAR=FOOBAR") "IncorrectDelimiter"
       "The FOO-BAR key has incorrect delimiter") (by decide)⟩

end DotenvLinter
